import Mathlib

/-!
# MusicXMLViewer: the Streamlit / OpenSheetMusicDisplay adapter

Shallow embedding of
`src/buckingham_conspiracy/components/st_musicxml_viewer/frontend/src/MusicXMLViewer.js`.

The component is a React function component with two refs (`osmdContainer`,
`osmd`) and two effects.  It is embedded as an explicit state machine:

* the two refs and the dependency array of the second effect are fields of `State`;
* every call the component makes on a collaborator (the engine constructor,
  `load`, `render`, `Streamlit.setFrameHeight`, `console.error`) is appended to a
  chronological call log;
* a promise returned by `load` is an entry of `pending` until the environment
  settles it, at which point the `.then(...).catch(...)` chain of the source runs.

Collaborator behaviour is not part of this repository and is taken as input of
the events: whether the container ref was attached at mount, whether a `load`
promise fulfils or rejects, and whether `render()` returns or throws.
`Streamlit.setFrameHeight()`, `console.error(...)` and the engine constructor are
calls that return.  Effects follow React: on mount both effects run in
declaration order; on a later delivery the first effect (dependency array `[]`)
never runs again and the second runs iff `props.args.xml_content` differs from
the value of the previous delivery.
-/

namespace MusicXMLViewer

/-! ## Data model -/

/-- Values of `props.args.xml_content`: absent, `null`, or a string. -/
inductive JSValue where
  | undefined
  | null
  | str (s : String)
  deriving DecidableEq, Repr

/-- JavaScript truthiness, as used by the guard `xml_content && osmd.current`. -/
def JSValue.truthy : JSValue → Bool
  | .str s => s != ""
  | _ => false

/-- The option object passed to the engine constructor. -/
structure OSMDOptions where
  autoResize : Bool
  backend : String
  drawTitle : Bool
  followCursor : Bool
  deriving DecidableEq, Repr

/-- The fixed options of line 11-16 of the source. -/
def osmdOptions : OSMDOptions :=
  { autoResize := true, backend := "svg", drawTitle := true, followCursor := false }

/-- Calls issued by the component on its collaborators.  Handles are identified
by a number: the `n`-th constructed engine instance has identity `n`. -/
inductive Call where
  | construct (h : Nat) (opts : OSMDOptions)
  | load (h : Nat) (arg : JSValue)
  | render (h : Nat)
  | setFrameHeight
  | consoleError (tag : String)
  deriving DecidableEq, Repr

def Call.isConstruct : Call → Bool
  | .construct _ _ => true
  | _ => false

def Call.isLoad : Call → Bool
  | .load _ _ => true
  | _ => false

def Call.isRender : Call → Bool
  | .render _ => true
  | _ => false

def Call.isHeight : Call → Bool
  | .setFrameHeight => true
  | _ => false

def Call.isError : Call → Bool
  | .consoleError _ => true
  | _ => false

/-- Number of engine constructions in a call log. -/
def constructs (l : List Call) : Nat := l.countP Call.isConstruct

/-- Number of `load` calls in a call log. -/
def loads (l : List Call) : Nat := l.countP Call.isLoad

/-- Number of `render` calls in a call log. -/
def renders (l : List Call) : Nat := l.countP Call.isRender

/-- Number of `Streamlit.setFrameHeight` calls in a call log. -/
def heights (l : List Call) : Nat := l.countP Call.isHeight

/-- Number of `console.error` records in a call log. -/
def errors (l : List Call) : Nat := l.countP Call.isError

/-- State of one component instance together with its observable history. -/
structure State where
  /-- whether the component has been mounted -/
  mounted : Bool
  /-- `osmdContainer.current` is a DOM node (truthy) -/
  osmdContainer : Bool
  /-- `osmd.current`: `none` is `null`, `some h` is the engine instance `h` -/
  osmd : Option Nat
  /-- value of `props.args.xml_content` at the previous delivery -/
  deps : Option JSValue
  /-- unsettled promises returned by `load`, with the argument of the call -/
  pending : List JSValue
  /-- chronological log of calls on the collaborators -/
  log : List Call
  /-- promise chains that ended rejected with no handler -/
  unhandled : Nat
  /-- visual output of the engine, see `renderReturns` -/
  view : Option JSValue
  deriving DecidableEq, Repr

/-- State before mount: both refs are `null`. -/
def init : State :=
  { mounted := false, osmdContainer := false, osmd := none, deps := none,
    pending := [], log := [], unhandled := 0, view := none }

/-! ## The two effects -/

/-- First effect (lines 9-18): construct the engine if the container is attached
and no engine exists yet. -/
def mountEffect (st : State) : State :=
  if st.osmdContainer && st.osmd.isNone then
    let h := constructs st.log
    { st with osmd := some h, log := st.log ++ [Call.construct h osmdOptions] }
  else st

/-- Second effect (lines 20-33): when the markup is truthy and an engine exists
(`xml_content && osmd.current`), call `load` with the markup and register the
promise chain. -/
def markupEffect (xml_content : JSValue) (st : State) : State :=
  if xml_content.truthy then
    match st.osmd with
    | some h =>
      { st with log := st.log ++ [Call.load h xml_content],
                pending := st.pending ++ [xml_content] }
    | none => st
  else st

/-! ## The promise chain -/

/-- Outcome of a promise or of a callback (returned / threw). -/
inductive Settled where
  | fulfilled
  | rejected
  deriving DecidableEq, Repr

/-- Modelled from the spec: the visual output of the engine, which is produced
by code outside this repository.  A render pass that returns shows the markup of
the load that completed (section 5: the last completed render wins visually);
nothing the component does changes the view otherwise. -/
def renderReturns (x : JSValue) (st : State) : State :=
  { st with view := some x }

/-- The `.then` callback (lines 25-28): `osmd.current.render()` followed by
`Streamlit.setFrameHeight()`.  A throwing `render` (or a `null` ref) rejects the
derived promise before the height report. -/
def onLoaded (x : JSValue) (renderOk : Bool) (st : State) : State × Settled :=
  match st.osmd with
  | none => (st, Settled.rejected)
  | some h =>
    let st1 := { st with log := st.log ++ [Call.render h] }
    if renderOk then
      let st2 := renderReturns x st1
      ({ st2 with log := st2.log ++ [Call.setFrameHeight] }, Settled.fulfilled)
    else (st1, Settled.rejected)

/-- The `.catch` callback (lines 29-31): one `console.error` record. -/
def onError (st : State) : State × Settled :=
  ({ st with log := st.log ++ [Call.consoleError "OSMD Error:"] }, Settled.fulfilled)

/-- The chain `load(x).then(onLoaded).catch(onError)` once `load` has settled. -/
def settleChain (x : JSValue) (loadOk renderOk : Bool) (st : State) : State × Settled :=
  if loadOk then
    match onLoaded x renderOk st with
    | (st1, Settled.fulfilled) => (st1, Settled.fulfilled)
    | (st1, Settled.rejected) => onError st1
  else onError st

/-! ## Events and the step function -/

/-- What the environment can do to a component instance. -/
inductive Event where
  /-- first delivery of the property bag; the flag says whether the container
  ref was attached -/
  | mount (containerAvailable : Bool) (xml_content : JSValue)
  /-- a later delivery of the property bag by the host -/
  | update (xml_content : JSValue)
  /-- the `i`-th pending `load` promise settles (`loadOk`: fulfilled), and
  `render()` returns (`renderOk`) or throws if it gets called -/
  | settle (i : Nat) (loadOk renderOk : Bool)
  deriving DecidableEq, Repr

/-- One step of the component; `none` when the event cannot occur in the state. -/
def step (st : State) : Event → Option State
  | .mount c xml =>
    if st.mounted then none
    else
      let st1 := mountEffect { st with mounted := true, osmdContainer := c }
      some { markupEffect xml st1 with deps := some xml }
  | .update xml =>
    if st.mounted then
      if st.deps = some xml then some st
      else some { markupEffect xml st with deps := some xml }
    else none
  | .settle i loadOk renderOk =>
    match st.pending[i]? with
    | none => none
    | some x =>
      match settleChain x loadOk renderOk { st with pending := st.pending.eraseIdx i } with
      | (st1, Settled.fulfilled) => some st1
      | (st1, Settled.rejected) => some { st1 with unhandled := st1.unhandled + 1 }

/-- Run a finite sequence of events. -/
def run (st : State) : List Event → Option State
  | [] => some st
  | e :: es => (step st e).bind fun st1 => run st1 es

/-- States the component can be in. -/
def Reachable (st : State) : Prop := ∃ es, run init es = some st

/-- Every height report in a log (given newest first) directly follows a
`render` call on handle `h`. -/
def heightsGuarded (h : Nat) : List Call → Bool
  | [] => true
  | Call.setFrameHeight :: Call.render k :: rest => k == h && heightsGuarded h rest
  | Call.setFrameHeight :: _ => false
  | _ :: rest => heightsGuarded h rest

/-- The four-step scenario of the specification against a fake engine that
fulfils the load of `v` and rejects the load of `m`. -/
def scenario (v m : String) : List Event :=
  [ Event.mount true (JSValue.str ""),
    Event.update (JSValue.str v), Event.settle 0 true true,
    Event.update (JSValue.str m), Event.settle 0 false true,
    Event.update (JSValue.str v), Event.settle 0 true true ]

/-- The call is not made on a handle other than `h`. -/
def Call.onHandle (h : Nat) : Call → Bool
  | .construct k _ => k == h
  | .load k _ => k == h
  | .render k => k == h
  | _ => true

/-- Number of `load` promises that have settled. -/
def completedLoads (st : State) : Nat := loads st.log - st.pending.length

/-- The invariant carried by every reachable state. -/
def Inv (s : State) : Prop :=
  (s.osmd = none → s.log = [] ∧ s.pending = []) ∧
  (s.mounted = false → s.osmd = none) ∧
  (∀ h, s.osmd = some h → heightsGuarded h s.log.reverse = true) ∧
  heights s.log + errors s.log + s.pending.length = loads s.log ∧
  renders s.log ≤ heights s.log + errors s.log ∧
  heights s.log ≤ renders s.log

/-- The state after the given events, starting from `init`. -/
def afterEvents (es : List Event) : State := (run init es).getD init

/-- A mounted component with a handle and no markup yet. -/
def idleState : State := afterEvents [Event.mount true (JSValue.str "")]

/-- A mounted component with a handle and one load of `"<score-partwise/>"` pending. -/
def loadingState : State :=
  afterEvents [Event.mount true (JSValue.str ""), Event.update (JSValue.str "<score-partwise/>")]

/-! ## Basic facts about single steps -/

theorem eraseIdx_length_append_singleton {α : Type} (l : List α) (a : α) :
    (l ++ [a]).eraseIdx l.length = l := by
  induction l with
  | nil => rfl
  | cons b l ih => simp [List.eraseIdx, ih]

theorem run_append (st : State) (es fs : List Event) :
    run st (es ++ fs) = (run st es).bind fun st1 => run st1 fs := by
  induction es generalizing st with
  | nil => simp [run]
  | cons e es ih =>
    cases hstep : step st e with
    | none => simp [run, hstep]
    | some st1 => simp [run, hstep, ih]

/-- A property kept by every step is kept by every run. -/
theorem run_preserves (P : State → Prop)
    (hstep : ∀ s e s1, P s → step s e = some s1 → P s1)
    (st st1 : State) (es : List Event) (h0 : P st) (hrun : run st es = some st1) : P st1 := by
  induction es generalizing st with
  | nil =>
    simp only [run, Option.some.injEq] at hrun
    exact hrun ▸ h0
  | cons e es ih =>
    cases hs : step st e with
    | none => simp [run, hs] at hrun
    | some s1 =>
      simp only [run, hs, Option.some_bind] at hrun
      exact ih s1 (hstep st e s1 h0 hs) hrun

/-- A delivery that changes the markup to a non-empty string issues the load. -/
theorem step_update_issue (st : State) (h : Nat) (s : String)
    (hm : st.mounted = true) (hh : st.osmd = some h) (hs : s ≠ "")
    (hd : st.deps ≠ some (JSValue.str s)) :
    step st (Event.update (JSValue.str s)) =
      some { st with log := st.log ++ [Call.load h (JSValue.str s)],
                     pending := st.pending ++ [JSValue.str s],
                     deps := some (JSValue.str s) } := by
  simp [step, hm, hd, markupEffect, hh, JSValue.truthy, hs]

/-- A fulfilled load whose render returns: render, then the height report. -/
theorem step_settle_ok (st : State) (h i : Nat) (x : JSValue)
    (hh : st.osmd = some h) (hp : st.pending[i]? = some x) :
    step st (Event.settle i true true) =
      some { st with pending := st.pending.eraseIdx i, view := some x,
                     log := st.log ++ [Call.render h] ++ [Call.setFrameHeight] } := by
  simp [step, hp, settleChain, onLoaded, renderReturns, hh]

/-- A fulfilled load whose render throws: render, then the error record. -/
theorem step_settle_renderThrows (st : State) (h i : Nat) (x : JSValue)
    (hh : st.osmd = some h) (hp : st.pending[i]? = some x) :
    step st (Event.settle i true false) =
      some { st with pending := st.pending.eraseIdx i,
                     log := st.log ++ [Call.render h] ++ [Call.consoleError "OSMD Error:"] } := by
  simp [step, hp, settleChain, onLoaded, renderReturns, onError, hh]

/-- A rejected load: the error record only. -/
theorem step_settle_rejected (st : State) (i : Nat) (x : JSValue) (renderOk : Bool)
    (hp : st.pending[i]? = some x) :
    step st (Event.settle i false renderOk) =
      some { st with pending := st.pending.eraseIdx i,
                     log := st.log ++ [Call.consoleError "OSMD Error:"] } := by
  simp [step, hp, settleChain, onError]

/-- A delivery of the value delivered last changes nothing. -/
theorem step_update_same (st : State) (xml : JSValue)
    (hm : st.mounted = true) (hd : st.deps = some xml) :
    step st (Event.update xml) = some st := by
  simp [step, hm, hd]

/-- A falsy markup value leaves the state untouched by the markup effect. -/
theorem markupEffect_falsy (st : State) (xml : JSValue) (hx : xml.truthy = false) :
    markupEffect xml st = st := by
  unfold markupEffect
  cases st.osmd <;> simp [hx]

/-- What a step can do to a mounted component that has a handle. -/
theorem step_mounted_cases (st st1 : State) (h : Nat) (e : Event)
    (hm : st.mounted = true) (hh : st.osmd = some h) (hstep : step st e = some st1) :
    st1.mounted = true ∧ st1.osmd = some h ∧ st1.unhandled = st.unhandled ∧
    ((st1.log = st.log ∧ st1.pending = st.pending) ∨
     (∃ x, st1.log = st.log ++ [Call.load h x] ∧ st1.pending = st.pending ++ [x]) ∨
     (∃ i, i < st.pending.length ∧ st1.pending = st.pending.eraseIdx i ∧
        (st1.log = st.log ++ [Call.render h, Call.setFrameHeight] ∨
         st1.log = st.log ++ [Call.render h, Call.consoleError "OSMD Error:"] ∨
         st1.log = st.log ++ [Call.consoleError "OSMD Error:"]))) := by
  cases e with
  | mount c xml => simp [step, hm] at hstep
  | update xml =>
    by_cases hd : st.deps = some xml
    · rw [step_update_same st xml hm hd] at hstep
      cases hstep
      exact ⟨hm, hh, rfl, Or.inl ⟨rfl, rfl⟩⟩
    · by_cases ht : xml.truthy = true
      · simp [step, hm, hd, markupEffect, hh, ht] at hstep
        subst hstep
        exact ⟨rfl, rfl, rfl, Or.inr (Or.inl ⟨xml, rfl, rfl⟩)⟩
      · simp [step, hm, hd, markupEffect, hh, ht] at hstep
        subst hstep
        exact ⟨rfl, rfl, rfl, Or.inl ⟨rfl, rfl⟩⟩
  | settle i lo ro =>
    cases hp : st.pending[i]? with
    | none => simp [step, hp] at hstep
    | some x =>
      have hi : i < st.pending.length := by
        by_contra hcon
        rw [List.getElem?_eq_none (Nat.le_of_not_lt hcon)] at hp
        cases hp
      cases lo with
      | false =>
        rw [step_settle_rejected st i x ro hp] at hstep
        cases hstep
        exact ⟨hm, hh, rfl, Or.inr (Or.inr ⟨i, hi, rfl, Or.inr (Or.inr rfl)⟩)⟩
      | true =>
        cases ro with
        | false =>
          rw [step_settle_renderThrows st h i x hh hp] at hstep
          cases hstep
          exact ⟨hm, hh, rfl, Or.inr (Or.inr ⟨i, hi, rfl, Or.inr (Or.inl (by simp))⟩)⟩
        | true =>
          rw [step_settle_ok st h i x hh hp] at hstep
          cases hstep
          exact ⟨hm, hh, rfl, Or.inr (Or.inr ⟨i, hi, rfl, Or.inl (by simp)⟩)⟩

/-- What a step can do to a mounted component that has no handle: only the
remembered markup value changes. -/
theorem step_no_handle (st st1 : State) (e : Event)
    (hm : st.mounted = true) (hh : st.osmd = none) (hp : st.pending = [])
    (hstep : step st e = some st1) :
    st1.mounted = true ∧ st1.osmd = none ∧ st1.pending = [] ∧ st1.log = st.log ∧
      st1.unhandled = st.unhandled ∧ st1.view = st.view := by
  cases e with
  | mount c xml => simp [step, hm] at hstep
  | update xml =>
    by_cases hd : st.deps = some xml
    · rw [step_update_same st xml hm hd] at hstep
      cases hstep
      exact ⟨hm, hh, hp, rfl, rfl, rfl⟩
    · simp [step, hm, hd, markupEffect, hh] at hstep
      subst hstep
      exact ⟨rfl, rfl, hp, rfl, rfl, rfl⟩
  | settle i lo ro => simp [step, hp] at hstep

/-! ## Claims about a single delivery or a single completion -/

/-- C1: when a non-empty markup string `s` is delivered to a mounted component
with handle `h`, one `load` is registered, and whenever that load fulfils and
`render` returns, the completion makes exactly the calls `render` on `h` and then
`Streamlit.setFrameHeight`, in this order, with no error record and no unhandled
rejection. -/
theorem load_render_cycle_reports_height_once (st : State) (h : Nat) (s : String)
    (hm : st.mounted = true) (hh : st.osmd = some h) (hs : s ≠ "")
    (hd : st.deps ≠ some (JSValue.str s)) :
    (∃ st1, step st (Event.update (JSValue.str s)) = some st1 ∧
        st1.log = st.log ++ [Call.load h (JSValue.str s)] ∧
        st1.pending = st.pending ++ [JSValue.str s] ∧
        ∃ st2, step st1 (Event.settle st.pending.length true true) = some st2 ∧
          st2.log = st.log ++ [Call.load h (JSValue.str s), Call.render h, Call.setFrameHeight] ∧
          st2.pending = st.pending) ∧
    ∀ (t : State) (i : Nat), t.osmd = some h → t.pending[i]? = some (JSValue.str s) →
      ∃ t1, step t (Event.settle i true true) = some t1 ∧
        t1.log = t.log ++ [Call.render h, Call.setFrameHeight] ∧
        renders t1.log = renders t.log + 1 ∧ heights t1.log = heights t.log + 1 ∧
        errors t1.log = errors t.log ∧ loads t1.log = loads t.log ∧
        t1.unhandled = t.unhandled ∧ t1.pending = t.pending.eraseIdx i := by
  constructor
  · refine ⟨_, step_update_issue st h s hm hh hs hd, rfl, rfl, ?_⟩
    refine ⟨_, step_settle_ok _ h st.pending.length (JSValue.str s) hh (by simp), ?_, ?_⟩
    · simp
    · exact eraseIdx_length_append_singleton _ _
  · intro t i ht hp
    refine ⟨_, step_settle_ok t h i _ ht hp, by simp, ?_, ?_, ?_, ?_, rfl, rfl⟩ <;>
      simp [renders, heights, errors, loads, List.countP_append, Call.isRender, Call.isHeight,
        Call.isError, Call.isLoad]

theorem load_render_cycle_reports_height_once_witness :
    ∃ t1, step loadingState (Event.settle 0 true true) = some t1 ∧
      t1.log = loadingState.log ++ [Call.render 0, Call.setFrameHeight] := by
  obtain ⟨t1, h1, h2, _⟩ :=
    (load_render_cycle_reports_height_once idleState 0 "<score-partwise/>"
      (by decide) (by decide) (by decide) (by decide)).2 loadingState 0 (by decide) (by decide)
  exact ⟨t1, h1, h2⟩

/-- C2: a delivery whose `xml_content` is the empty string, `undefined` or `null`
issues no `load`, no `render`, no height report and no error record, in every
state: the markup effect is the identity, an update changes neither the log nor
the pending promises, and a mount adds none of these calls. -/
theorem falsy_markup_makes_no_call (st : State) (xml : JSValue)
    (hx : xml = JSValue.undefined ∨ xml = JSValue.null ∨ xml = JSValue.str "") :
    markupEffect xml st = st ∧
    (st.mounted = true → ∃ st1, step st (Event.update xml) = some st1 ∧
        st1.log = st.log ∧ st1.pending = st.pending ∧ st1.unhandled = st.unhandled ∧
        st1.view = st.view ∧ st1.osmd = st.osmd) ∧
    (st.mounted = false → ∀ c, ∃ st1, step st (Event.mount c xml) = some st1 ∧
        loads st1.log = loads st.log ∧ renders st1.log = renders st.log ∧
        heights st1.log = heights st.log ∧ errors st1.log = errors st.log ∧
        st1.pending = st.pending ∧ st1.unhandled = st.unhandled) := by
  have ht : xml.truthy = false := by
    rcases hx with rfl | rfl | rfl <;> simp [JSValue.truthy]
  refine ⟨markupEffect_falsy st xml ht, ?_, ?_⟩
  · intro hm
    by_cases hd : st.deps = some xml
    · exact ⟨st, step_update_same st xml hm hd, rfl, rfl, rfl, rfl, rfl⟩
    · refine ⟨{ st with deps := some xml }, ?_, rfl, rfl, rfl, rfl, rfl⟩
      simp [step, hm, hd, markupEffect_falsy st xml ht]
  · intro hm c
    refine ⟨_, by simp only [step, hm]; rfl, ?_⟩
    rw [markupEffect_falsy _ xml ht]
    unfold mountEffect
    split <;>
      simp [loads, renders, heights, errors, List.countP_append, Call.isLoad, Call.isRender,
        Call.isHeight, Call.isError]

theorem falsy_markup_makes_no_call_witness :
    ∃ st1, step loadingState (Event.update JSValue.undefined) = some st1 ∧
      st1.log = loadingState.log ∧ st1.pending = loadingState.pending := by
  obtain ⟨st1, h1, h2, h3, _⟩ :=
    (falsy_markup_makes_no_call loadingState JSValue.undefined (Or.inl rfl)).2.1 (by decide)
  exact ⟨st1, h1, h2, h3⟩

/-- C4: when a non-empty markup `s` is delivered to a component with a handle,
the update step completes and issues the load; when that load rejects, the
completion step completes normally, appends exactly one `console.error` record
and nothing else (no `render`, no height report, no further `load`), leaves no
unhandled rejection and leaves the rendered view as it was. -/
theorem rejected_load_logs_one_error (st : State) (h : Nat) (s : String)
    (hm : st.mounted = true) (hh : st.osmd = some h) (hs : s ≠ "")
    (hd : st.deps ≠ some (JSValue.str s)) :
    (∃ st1, step st (Event.update (JSValue.str s)) = some st1 ∧
        st1.log = st.log ++ [Call.load h (JSValue.str s)] ∧
        st1.unhandled = st.unhandled ∧ st1.view = st.view) ∧
    ∀ (t : State) (i : Nat) (renderOk : Bool), t.pending[i]? = some (JSValue.str s) →
      ∃ t1, step t (Event.settle i false renderOk) = some t1 ∧
        t1.log = t.log ++ [Call.consoleError "OSMD Error:"] ∧
        errors t1.log = errors t.log + 1 ∧ renders t1.log = renders t.log ∧
        heights t1.log = heights t.log ∧ loads t1.log = loads t.log ∧
        constructs t1.log = constructs t.log ∧
        t1.unhandled = t.unhandled ∧ t1.view = t.view ∧ t1.osmd = t.osmd ∧
        t1.pending = t.pending.eraseIdx i := by
  constructor
  · exact ⟨_, step_update_issue st h s hm hh hs hd, rfl, rfl, rfl⟩
  · intro t i renderOk hp
    refine ⟨_, step_settle_rejected t i _ renderOk hp, rfl, ?_, ?_, ?_, ?_, ?_, rfl, rfl, rfl, rfl⟩ <;>
      simp [renders, heights, errors, loads, constructs, List.countP_append, Call.isRender,
        Call.isHeight, Call.isError, Call.isLoad, Call.isConstruct]

theorem rejected_load_logs_one_error_witness :
    ∃ t1, step loadingState (Event.settle 0 false true) = some t1 ∧
      t1.log = loadingState.log ++ [Call.consoleError "OSMD Error:"] := by
  obtain ⟨t1, h1, h2, _⟩ :=
    (rejected_load_logs_one_error idleState 0 "<score-partwise/>"
      (by decide) (by decide) (by decide) (by decide)).2 loadingState 0 true (by decide)
  exact ⟨t1, h1, h2⟩

/-- C6: an update that changes `xml_content` to a non-empty string `s` while a
handle `h` exists issues exactly one call, `load` on `h` with argument exactly
`s`; and mounting with a non-empty `s` and an attached container constructs the
handle and then issues one `load` of `s` within the mount itself. -/
theorem markup_forwarded_unmodified (st : State) (h : Nat) (s : String)
    (hm : st.mounted = true) (hh : st.osmd = some h) (hs : s ≠ "")
    (hd : st.deps ≠ some (JSValue.str s)) :
    (∃ st1, step st (Event.update (JSValue.str s)) = some st1 ∧
        st1.log = st.log ++ [Call.load h (JSValue.str s)] ∧
        loads st1.log = loads st.log + 1 ∧
        st1.pending = st.pending ++ [JSValue.str s]) ∧
    (∃ st1, step init (Event.mount true (JSValue.str s)) = some st1 ∧
        st1.log = [Call.construct 0 osmdOptions, Call.load 0 (JSValue.str s)] ∧
        st1.osmd = some 0 ∧ st1.pending = [JSValue.str s]) := by
  constructor
  · refine ⟨_, step_update_issue st h s hm hh hs hd, rfl, ?_, rfl⟩
    simp [loads, List.countP_append, Call.isLoad]
  · refine ⟨_, rfl, ?_, ?_, ?_⟩ <;>
      simp [init, mountEffect, markupEffect, constructs, JSValue.truthy, hs]

theorem markup_forwarded_unmodified_witness :
    ∃ st1, step idleState (Event.update (JSValue.str "<score-partwise/>")) = some st1 ∧
      st1.log = idleState.log ++ [Call.load 0 (JSValue.str "<score-partwise/>")] := by
  obtain ⟨st1, h1, h2, _⟩ :=
    (markup_forwarded_unmodified idleState 0 "<score-partwise/>"
      (by decide) (by decide) (by decide) (by decide)).1
  exact ⟨st1, h1, h2⟩

/-- C9: when the load of a delivered non-empty markup fulfils but `render`
throws, the completion appends exactly the `render` call and one
`console.error` record: no height report, no unhandled rejection, no further
`load` or `render`, the promise is gone from the pending ones, and a later
delivery of the unchanged markup does nothing. -/
theorem render_failure_logged_not_retried (st : State) (h : Nat) (s : String)
    (hm : st.mounted = true) (hh : st.osmd = some h) (hs : s ≠ "")
    (hd : st.deps ≠ some (JSValue.str s)) :
    (∃ st1, step st (Event.update (JSValue.str s)) = some st1 ∧
        st1.log = st.log ++ [Call.load h (JSValue.str s)] ∧
        st1.pending = st.pending ++ [JSValue.str s]) ∧
    ∀ (t : State) (i : Nat), t.osmd = some h → t.pending[i]? = some (JSValue.str s) →
      ∃ t1, step t (Event.settle i true false) = some t1 ∧
        t1.log = t.log ++ [Call.render h, Call.consoleError "OSMD Error:"] ∧
        errors t1.log = errors t.log + 1 ∧ heights t1.log = heights t.log ∧
        renders t1.log = renders t.log + 1 ∧ loads t1.log = loads t.log ∧
        t1.unhandled = t.unhandled ∧ t1.view = t.view ∧
        t1.pending = t.pending.eraseIdx i ∧
        (t.mounted = true → ∀ y, t.deps = some y → step t1 (Event.update y) = some t1) := by
  constructor
  · exact ⟨_, step_update_issue st h s hm hh hs hd, rfl, rfl⟩
  · intro t i ht hp
    refine ⟨_, step_settle_renderThrows t h i _ ht hp, by simp, ?_, ?_, ?_, ?_, rfl, rfl, rfl, ?_⟩
    · simp [errors, List.countP_append, Call.isError]
    · simp [heights, List.countP_append, Call.isHeight]
    · simp [renders, List.countP_append, Call.isRender]
    · simp [loads, List.countP_append, Call.isLoad]
    · intro hmt y hy
      exact step_update_same _ y hmt hy

theorem render_failure_logged_not_retried_witness :
    ∃ t1, step loadingState (Event.settle 0 true false) = some t1 ∧
      t1.log = loadingState.log ++ [Call.render 0, Call.consoleError "OSMD Error:"] := by
  obtain ⟨t1, h1, h2, _⟩ :=
    (render_failure_logged_not_retried idleState 0 "<score-partwise/>"
      (by decide) (by decide) (by decide) (by decide)).2 loadingState 0 (by decide) (by decide)
  exact ⟨t1, h1, h2⟩

/-! ## Claims about whole runs -/

/-- C3: after a mount with the container attached, whatever finite sequence of
events follows, the log holds exactly one engine construction (the first call,
handle `0`, with the fixed options), the stored handle is that same handle `0`,
and every engine call in the log is made on it. -/
theorem single_handle_per_mount (xml : JSValue) (es : List Event) (st : State)
    (hrun : run init (Event.mount true xml :: es) = some st) :
    constructs st.log = 1 ∧ st.osmd = some 0 ∧
      st.log.head? = some (Call.construct 0 osmdOptions) ∧
      st.log.all (Call.onHandle 0) = true := by
  have hmount : ∃ s0, step init (Event.mount true xml) = some s0 ∧
      (s0.mounted = true ∧ constructs s0.log = 1 ∧ s0.osmd = some 0 ∧
        s0.log.head? = some (Call.construct 0 osmdOptions) ∧
        s0.log.all (Call.onHandle 0) = true) := by
    refine ⟨_, rfl, ?_⟩
    by_cases ht : xml.truthy = true <;>
      simp [init, mountEffect, markupEffect, constructs, ht, Call.isConstruct, Call.onHandle]
  obtain ⟨s0, hs0, hP0⟩ := hmount
  simp only [run, hs0, Option.some_bind] at hrun
  have key := run_preserves
    (fun s => s.mounted = true ∧ constructs s.log = 1 ∧ s.osmd = some 0 ∧
        s.log.head? = some (Call.construct 0 osmdOptions) ∧
        s.log.all (Call.onHandle 0) = true)
    (by
      rintro s e s1 ⟨hm, hc, hh, hhead, hall⟩ hstep
      obtain ⟨hm1, hh1, -, hcases⟩ := step_mounted_cases s s1 0 e hm hh hstep
      have hne : s.log ≠ [] := by
        intro hnil
        rw [hnil] at hhead
        cases hhead
      obtain ⟨c0, l0, hl0⟩ := List.exists_cons_of_ne_nil hne
      rcases hcases with ⟨hl, -⟩ | ⟨x, hl, -⟩ | ⟨i, -, -, hl | hl | hl⟩ <;>
        refine ⟨hm1, ?_, hh1, ?_, ?_⟩ <;>
        simp_all [constructs, List.countP_append, Call.isConstruct, Call.onHandle])
    s0 st es hP0 hrun
  exact ⟨key.2.1, key.2.2.1, key.2.2.2.1, key.2.2.2.2⟩

theorem single_handle_per_mount_witness :
    constructs (afterEvents (scenario "<score-partwise/>" "<")).log = 1 ∧
      (afterEvents (scenario "<score-partwise/>" "<")).osmd = some 0 := by
  have h := single_handle_per_mount (JSValue.str "")
    [ Event.update (JSValue.str "<score-partwise/>"), Event.settle 0 true true,
      Event.update (JSValue.str "<"), Event.settle 0 false true,
      Event.update (JSValue.str "<score-partwise/>"), Event.settle 0 true true ]
    (afterEvents (scenario "<score-partwise/>" "<")) (by decide)
  exact ⟨h.1, h.2.1⟩

/-- C7: a mount with the container unavailable completes, constructs no handle
and logs nothing; every sequence of markup deliveries after it, whatever the
values, completes and leaves the log empty (no engine call, no height report, no
error record), the handle absent and no promise pending; and no other event
sequence can produce a call either. -/
theorem missing_container_is_tolerated (xml : JSValue) (us : List JSValue) :
    (∃ st, run init (Event.mount false xml :: us.map Event.update) = some st ∧
        st.osmd = none ∧ st.log = [] ∧ st.pending = [] ∧ st.unhandled = 0) ∧
    ∀ es st, run init (Event.mount false xml :: es) = some st →
        st.osmd = none ∧ st.log = [] ∧ st.pending = [] ∧ st.unhandled = 0 := by
  have hs0 : step init (Event.mount false xml) =
      some { init with mounted := true, deps := some xml } := by
    simp [step, init, mountEffect, markupEffect]
  constructor
  · simp only [run, hs0, Option.some_bind]
    have total : ∀ (us : List JSValue) (s : State), s.mounted = true → s.osmd = none →
        s.pending = [] → ∃ st, run s (us.map Event.update) = some st ∧
          st.osmd = none ∧ st.log = s.log ∧ st.pending = [] ∧ st.unhandled = s.unhandled := by
      intro us
      induction us with
      | nil => intro s _ hh hp; exact ⟨s, rfl, hh, rfl, hp, rfl⟩
      | cons u us ih =>
        intro s hm hh hp
        have hex : ∃ s1, step s (Event.update u) = some s1 := by
          by_cases hd : s.deps = some u <;> simp [step, hm, hd]
        obtain ⟨s1, hs1⟩ := hex
        obtain ⟨hm1, hh1, hp1, hl1, hu1, -⟩ := step_no_handle s s1 _ hm hh hp hs1
        obtain ⟨st, hst, h1, h2, h3, h4⟩ := ih s1 hm1 hh1 hp1
        refine ⟨st, ?_, h1, h2.trans hl1, h3, h4.trans hu1⟩
        simp [run, hs1, hst]
    obtain ⟨st, hst, h1, h2, h3, h4⟩ := total us { init with mounted := true, deps := some xml } rfl rfl rfl
    exact ⟨st, hst, h1, h2, h3, h4⟩
  · intro es st hrun
    simp only [run, hs0, Option.some_bind] at hrun
    have key := run_preserves
      (fun s => s.mounted = true ∧ s.osmd = none ∧ s.pending = [] ∧ s.log = [] ∧ s.unhandled = 0)
      (by
        rintro s e s1 ⟨hm, hh, hp, hl, hu⟩ hstep
        obtain ⟨hm1, hh1, hp1, hl1, hu1, -⟩ := step_no_handle s s1 e hm hh hp hstep
        exact ⟨hm1, hh1, hp1, hl1.trans hl, hu1.trans hu⟩)
      _ st es ⟨rfl, rfl, rfl, rfl, rfl⟩ hrun
    exact ⟨key.2.1, key.2.2.2.1, key.2.2.1, key.2.2.2.2⟩

theorem missing_container_is_tolerated_witness :
    (afterEvents [Event.mount false (JSValue.str "<score-partwise/>"),
        Event.update (JSValue.str "<"), Event.update JSValue.null]).log = [] ∧
      (afterEvents [Event.mount false (JSValue.str "<score-partwise/>"),
        Event.update (JSValue.str "<"), Event.update JSValue.null]).osmd = none := by
  have h := (missing_container_is_tolerated (JSValue.str "<score-partwise/>") []).2
    [Event.update (JSValue.str "<"), Event.update JSValue.null]
    (afterEvents [Event.mount false (JSValue.str "<score-partwise/>"),
        Event.update (JSValue.str "<"), Event.update JSValue.null]) (by decide)
  exact ⟨h.2.1, h.1⟩

/-- C8: a delivery whose `xml_content` equals the value of the previous delivery
leaves the component exactly as it was (no `load`, `render` or height report);
any update that does add a call adds exactly one `load` of a value different
from the previous one; and delivering a value a second time in a row does
nothing. -/
theorem unchanged_markup_is_not_reloaded (st : State) (xml : JSValue)
    (hm : st.mounted = true) (hd : st.deps = some xml) :
    step st (Event.update xml) = some st ∧
    (∀ y st1, step st (Event.update y) = some st1 → st1.log ≠ st.log →
        y ≠ xml ∧ ∃ h, st.osmd = some h ∧ st1.log = st.log ++ [Call.load h y]) ∧
    (∀ y st1, step st (Event.update y) = some st1 →
        run st [Event.update y, Event.update y] = some st1) := by
  refine ⟨step_update_same st xml hm hd, ?_, ?_⟩
  · intro y st1 hstep hlog
    have hy : y ≠ xml := by
      rintro rfl
      rw [step_update_same st y hm hd] at hstep
      cases hstep
      exact hlog rfl
    refine ⟨hy, ?_⟩
    have hdy : st.deps ≠ some y := by
      rw [hd]
      intro hcon
      cases hcon
      exact hy rfl
    cases hh : st.osmd with
    | none =>
      simp [step, hm, hdy, markupEffect, hh] at hstep
      subst hstep
      exact absurd rfl hlog
    | some h =>
      by_cases ht : y.truthy = true
      · simp [step, hm, hdy, markupEffect, hh, ht] at hstep
        subst hstep
        exact ⟨h, rfl, rfl⟩
      · simp [step, hm, hdy, markupEffect, hh, ht] at hstep
        subst hstep
        exact absurd rfl hlog
  · intro y st1 hstep
    have h1 : st1.mounted = true ∧ st1.deps = some y := by
      by_cases hdy : st.deps = some y
      · rw [step_update_same st y hm hdy] at hstep
        cases hstep
        exact ⟨hm, hdy⟩
      · simp only [step, hm, hdy, if_true, if_false, Option.some.injEq] at hstep
        subst hstep
        refine ⟨?_, rfl⟩
        show (markupEffect y st).mounted = true
        unfold markupEffect
        split
        · split <;> exact hm
        · exact hm
    simp [run, hstep, step_update_same st1 y h1.1 h1.2]

theorem unchanged_markup_is_not_reloaded_witness :
    step loadingState (Event.update (JSValue.str "<score-partwise/>")) = some loadingState :=
  (unchanged_markup_is_not_reloaded loadingState (JSValue.str "<score-partwise/>")
    (by decide) (by decide)).1

theorem inv_init : Inv init := by
  simp [Inv, init, heights, errors, loads, renders]

theorem inv_step (s s1 : State) (e : Event) (hI : Inv s) (hstep : step s e = some s1) :
    Inv s1 := by
  obtain ⟨hnone, hunm, hguard, hcount, hrend, hle⟩ := hI
  cases hm : s.mounted with
  | false =>
    obtain ⟨hl, hp⟩ := hnone (hunm hm)
    have hh := hunm hm
    cases e with
    | update xml => simp [step, hm] at hstep
    | settle i lo ro => simp [step, hp] at hstep
    | mount c xml =>
      simp only [step, hm] at hstep
      cases c <;> by_cases ht : xml.truthy = true <;>
        simp [mountEffect, markupEffect, hh, hl, hp, ht, constructs] at hstep <;>
        subst hstep <;>
        simp [Inv, hl, hp, hh, heights, errors, loads, renders, heightsGuarded, Call.isHeight,
          Call.isError, Call.isLoad, Call.isRender]
  | true =>
    cases hh : s.osmd with
    | none =>
      obtain ⟨hl, hp⟩ := hnone hh
      obtain ⟨hm1, hh1, hp1, hl1, -, -⟩ := step_no_handle s s1 e hm hh hp hstep
      simp [Inv, hm1, hh1, hp1, hl1, hl, heights, errors, loads, renders]
    | some h =>
      obtain ⟨hm1, hh1, -, hcases⟩ := step_mounted_cases s s1 h e hm hh hstep
      have hg := hguard h hh
      simp only [heights, errors, loads, renders] at hcount hrend hle
      rcases hcases with ⟨hl, hp⟩ | ⟨x, hl, hp⟩ | ⟨i, hi, hp, hl | hl | hl⟩
      · simp only [Inv, hm1, hh1, hl, hp]
        simp [hg, heights, errors, loads, renders, hcount, hrend, hle]
      · simp only [Inv, hm1, hh1, hl, hp]
        simp only [heights, errors, loads, renders]
        simp [hg, List.countP_append, heightsGuarded,
          Call.isHeight, Call.isError, Call.isLoad, Call.isRender]
        omega
      · have hlen := List.length_eraseIdx_of_lt hi
        simp only [Inv, hm1, hh1, hl, hp]
        simp only [heights, errors, loads, renders]
        simp [hg, List.countP_append, heightsGuarded,
          Call.isHeight, Call.isError, Call.isLoad, Call.isRender, hlen]
        omega
      · have hlen := List.length_eraseIdx_of_lt hi
        simp only [Inv, hm1, hh1, hl, hp]
        simp only [heights, errors, loads, renders]
        simp [hg, List.countP_append, heightsGuarded,
          Call.isHeight, Call.isError, Call.isLoad, Call.isRender, hlen]
        omega
      · have hlen := List.length_eraseIdx_of_lt hi
        simp only [Inv, hm1, hh1, hl, hp]
        simp only [heights, errors, loads, renders]
        simp [hg, List.countP_append, heightsGuarded,
          Call.isHeight, Call.isError, Call.isLoad, Call.isRender, hlen]
        omega

theorem inv_of_reachable (st : State) (hr : Reachable st) : Inv st := by
  obtain ⟨es, hes⟩ := hr
  exact run_preserves Inv (fun s e s1 hI hs => inv_step s s1 e hI hs) init st es inv_init hes

/-- C10: in every reachable state, height reports are at most the render
calls, which are at most the load calls; height reports plus error records
equal the number of completed loads; every height report in the log directly
follows a `render` on the stored handle (and there is none without a handle);
and every pending load can settle, its completion appending first either a
`render` call or an error record, followed by at most one more call, and raising
height reports plus error records by exactly one. -/
theorem call_counts_invariant (st : State) (hr : Reachable st) :
    heights st.log ≤ renders st.log ∧ renders st.log ≤ loads st.log ∧
    st.pending.length ≤ loads st.log ∧
    heights st.log + errors st.log = completedLoads st ∧
    (∀ h, st.osmd = some h → heightsGuarded h st.log.reverse = true) ∧
    (st.osmd = none → heights st.log = 0) ∧
    ∀ (i : Nat) (loadOk renderOk : Bool), i < st.pending.length →
      ∃ st1 c rest, step st (Event.settle i loadOk renderOk) = some st1 ∧
        st1.log = st.log ++ c :: rest ∧ (c.isRender = true ∨ c.isError = true) ∧
        rest.length ≤ 1 ∧ loads rest = 0 ∧ renders rest = 0 ∧
        heights st1.log + errors st1.log = heights st.log + errors st.log + 1 ∧
        completedLoads st1 = completedLoads st + 1 := by
  obtain ⟨hnone, -, hguard, hcount, hrend, hle⟩ := inv_of_reachable st hr
  refine ⟨hle, by omega, by omega, by unfold completedLoads; omega, hguard, ?_, ?_⟩
  · intro hh
    rw [(hnone hh).1]
    rfl
  · intro i lo ro hi
    have hp : st.pending[i]? = some st.pending[i] := List.getElem?_eq_getElem hi
    have hlen := List.length_eraseIdx_of_lt hi
    cases hh : st.osmd with
    | none =>
      rw [(hnone hh).2] at hi
      cases hi
    | some h =>
      cases lo with
      | false =>
        refine ⟨_, Call.consoleError "OSMD Error:", [],
          step_settle_rejected st i _ ro hp, rfl, Or.inr rfl, by simp, rfl, rfl, ?_, ?_⟩
        · simp [heights, errors, List.countP_append, Call.isHeight, Call.isError]
          omega
        · simp [completedLoads, loads, List.countP_append, Call.isLoad, hlen]
          simp only [loads] at hcount
          omega
      | true =>
        cases ro with
        | false =>
          refine ⟨_, Call.render h, [Call.consoleError "OSMD Error:"],
            step_settle_renderThrows st h i _ hh hp, by simp, Or.inl rfl, by simp, rfl, rfl,
            ?_, ?_⟩
          · simp [heights, errors, List.countP_append, Call.isHeight, Call.isError]
            omega
          · simp [completedLoads, loads, List.countP_append, Call.isLoad, hlen]
            simp only [loads] at hcount
            omega
        | true =>
          refine ⟨_, Call.render h, [Call.setFrameHeight],
            step_settle_ok st h i _ hh hp, by simp, Or.inl rfl, by simp, rfl, rfl, ?_, ?_⟩
          · simp [heights, errors, List.countP_append, Call.isHeight, Call.isError]
            omega
          · simp [completedLoads, loads, List.countP_append, Call.isLoad, hlen]
            simp only [loads] at hcount
            omega

theorem call_counts_invariant_witness :
    heights (afterEvents (scenario "<score-partwise/>" "<")).log ≤
        renders (afterEvents (scenario "<score-partwise/>" "<")).log ∧
      renders (afterEvents (scenario "<score-partwise/>" "<")).log ≤
        loads (afterEvents (scenario "<score-partwise/>" "<")).log := by
  have h := call_counts_invariant (afterEvents (scenario "<score-partwise/>" "<"))
    ⟨scenario "<score-partwise/>" "<", by decide⟩
  exact ⟨h.1, h.2.1⟩

/-- C5: the four-step scenario, each load settling before the next update.
Mounting with `""` constructs handle `0` and makes no engine call; updating to
a valid `v` adds one `load`, one `render`, one height report; updating to a
malformed `m` adds one `load` and one error record, no `render`, no height
report, and leaves the view; updating back to `v` adds one more `load`,
`render` and height report; all calls are on handle `0`, and the totals are 1
construction, 3 loads, 2 renders, 2 height reports, 1 error. -/
theorem four_step_scenario (v m : String) (hv : v ≠ "") (hm : m ≠ "") (hvm : m ≠ v) :
    ∃ s1 s2 s3 s4 : State,
      run init [Event.mount true (JSValue.str "")] = some s1 ∧
      s1.log = [Call.construct 0 osmdOptions] ∧
      run s1 [Event.update (JSValue.str v), Event.settle 0 true true] = some s2 ∧
      s2.log = s1.log ++ [Call.load 0 (JSValue.str v), Call.render 0, Call.setFrameHeight] ∧
      run s2 [Event.update (JSValue.str m), Event.settle 0 false true] = some s3 ∧
      s3.log = s2.log ++ [Call.load 0 (JSValue.str m), Call.consoleError "OSMD Error:"] ∧
      s3.view = s2.view ∧
      run s3 [Event.update (JSValue.str v), Event.settle 0 true true] = some s4 ∧
      s4.log = s3.log ++ [Call.load 0 (JSValue.str v), Call.render 0, Call.setFrameHeight] ∧
      run init (scenario v m) = some s4 ∧
      s1.osmd = some 0 ∧ s2.osmd = some 0 ∧ s3.osmd = some 0 ∧ s4.osmd = some 0 ∧
      s4.pending = [] ∧ s4.unhandled = 0 ∧
      constructs s4.log = 1 ∧ loads s4.log = 3 ∧ renders s4.log = 2 ∧
      heights s4.log = 2 ∧ errors s4.log = 1 := by
  have hmv : ¬ v = m := fun h => hvm h.symm
  refine ⟨
    { mounted := true, osmdContainer := true, osmd := some 0, deps := some (JSValue.str ""),
      pending := [], log := [Call.construct 0 osmdOptions], unhandled := 0, view := none },
    { mounted := true, osmdContainer := true, osmd := some 0, deps := some (JSValue.str v),
      pending := [], unhandled := 0, view := some (JSValue.str v),
      log := [Call.construct 0 osmdOptions, Call.load 0 (JSValue.str v), Call.render 0,
        Call.setFrameHeight] },
    { mounted := true, osmdContainer := true, osmd := some 0, deps := some (JSValue.str m),
      pending := [], unhandled := 0, view := some (JSValue.str v),
      log := [Call.construct 0 osmdOptions, Call.load 0 (JSValue.str v), Call.render 0,
        Call.setFrameHeight, Call.load 0 (JSValue.str m), Call.consoleError "OSMD Error:"] },
    { mounted := true, osmdContainer := true, osmd := some 0, deps := some (JSValue.str v),
      pending := [], unhandled := 0, view := some (JSValue.str v),
      log := [Call.construct 0 osmdOptions, Call.load 0 (JSValue.str v), Call.render 0,
        Call.setFrameHeight, Call.load 0 (JSValue.str m), Call.consoleError "OSMD Error:",
        Call.load 0 (JSValue.str v), Call.render 0, Call.setFrameHeight] },
    rfl, rfl, ?_, rfl, ?_, rfl, rfl, ?_, rfl, ?_, rfl, rfl, rfl, rfl, rfl, rfl,
    rfl, rfl, rfl, rfl, rfl⟩
  · simp [run, step, markupEffect, settleChain, onLoaded, renderReturns, JSValue.truthy, hv, Ne.symm hv]
  · simp [run, step, markupEffect, settleChain, onError, JSValue.truthy, hm, hmv]
  · simp [run, step, markupEffect, settleChain, onLoaded, renderReturns, JSValue.truthy, hv, hvm]
  · simp [scenario, run, step, init, mountEffect, constructs, markupEffect, settleChain,
      onLoaded, renderReturns, onError, JSValue.truthy, hv, Ne.symm hv, hm, hvm, hmv]

theorem four_step_scenario_witness :
    "<score-partwise/>" ≠ "" ∧ "<" ≠ "" ∧ "<" ≠ "<score-partwise/>" ∧
      ∃ s4, run init (scenario "<score-partwise/>" "<") = some s4 ∧
        constructs s4.log = 1 ∧ loads s4.log = 3 ∧ renders s4.log = 2 ∧
        heights s4.log = 2 ∧ errors s4.log = 1 := by
  refine ⟨by decide, by decide, by decide, ?_⟩
  obtain ⟨_, _, _, s4, _, _, _, _, _, _, _, _, _, h, _, _, _, _, _, _, h1, h2, h3, h4, h5⟩ :=
    four_step_scenario "<score-partwise/>" "<" (by decide) (by decide) (by decide)
  exact ⟨s4, h, h1, h2, h3, h4, h5⟩

end MusicXMLViewer
